import Mathlib

/-! # Camera controller: recording / capture lifecycle

A shallow embedding of `backend/cmd/main.go`.

* Go strings are modelled by Lean `String`s (sequences of code points, i.e. the
  valid UTF-8 texts); the functions of package `strings` used by the program
  are defined on the underlying `List Char`.
* A `float64` value is `Float64`: a finite value (its exact rational value,
  the two zeros identified), an infinity or NaN. Subtraction rounds the exact
  difference to the nearest float64, ties to even, as IEEE 754 does.
  `strconv.ParseFloat` and the functions of `path/filepath` are library code
  and are taken as the parameter `GoLib`.
* The operating system (clock, working directory, subprocess results) is the
  parameter `World`, one value for each run of a handler or of the completion
  goroutine.
* Side effects are recorded as a list of `Event`s in program order.  Log
  output (`log.Printf`, `log.Println`) is not recorded.
* Messages are handled one at a time.  A run of a handler, and the body of the
  completion goroutine from the return of `recordCmd.Wait()` on, are single
  steps of the transition system.  A handler that panics, or that is still
  inside the unbounded polling loop of `detectStartOffset`, stops the message
  loop.
-/

namespace CameraController

/-! ## Package `strings` -/

/-- The predicate `unicode.IsSpace`. -/
def isSpace (c : Char) : Bool :=
  c == '\t' || c == '\n' || c == '\x0b' || c == '\x0c' || c == '\r' || c == ' ' ||
  c.toNat == 0x85 || c.toNat == 0xA0 || c.toNat == 0x1680 ||
  (0x2000 ≤ c.toNat && c.toNat ≤ 0x200a) ||
  c.toNat == 0x2028 || c.toNat == 0x2029 || c.toNat == 0x202f || c.toNat == 0x205f ||
  c.toNat == 0x3000

/-- Worker of `Fields`: `cur` is the field being read, in reverse. -/
def fieldsGo : List Char → List Char → List (List Char)
  | [], cur => if cur.isEmpty then [] else [cur.reverse]
  | c :: cs, cur =>
    if isSpace c then
      if cur.isEmpty then fieldsGo cs [] else cur.reverse :: fieldsGo cs []
    else fieldsGo cs (c :: cur)

/-- The function `strings.Fields`: the maximal runs of non-space characters. -/
def Fields (s : String) : List String :=
  (fieldsGo s.data []).map String.mk

/-- The function `strings.TrimSpace`. -/
def TrimSpace (s : String) : String :=
  String.mk ((s.data.dropWhile isSpace).rdropWhile isSpace)

/-- Substring test on character lists. -/
def containsGo : List Char → List Char → Bool
  | [], sub => sub.isEmpty
  | c :: cs, sub => sub.isPrefixOf (c :: cs) || containsGo cs sub

/-- The function `strings.Contains`. -/
def Contains (s sub : String) : Bool :=
  containsGo s.data sub.data

/-- Worker of `Split` for a non-empty separator: `skip` counts the characters
of a matched separator still to be passed over, `cur` is the part being read,
in reverse. -/
def splitGo (sep : List Char) : List Char → Nat → List Char → List (List Char)
  | [], _, cur => [cur.reverse]
  | _ :: cs, skip + 1, cur => splitGo sep cs skip cur
  | c :: cs, 0, cur =>
    if sep.isPrefixOf (c :: cs) then cur.reverse :: splitGo sep cs (sep.length - 1) []
    else splitGo sep cs 0 (c :: cur)

/-- The function `strings.Split` for a non-empty separator. -/
def Split (s sep : String) : List String :=
  (splitGo sep.data s.data 0 []).map String.mk

/-! ## The black-frame probe -/

/-- What the parsing step of one probe attempt does. -/
inductive Attempt (α : Type) where
  /-- The function returns this value. -/
  | returned (t : α)
  /-- No value: the loop sleeps and probes again. -/
  | retry
  /-- Run-time panic (`index out of range`). -/
  | panicked
  deriving DecidableEq, Repr

/-- The body of `for _, line := range lines` in `detectStartOffset`; the loop
is left at the first line for which `ParseFloat` succeeds. -/
def scanLines {α : Type} (parseFloat : String → Option α) : List String → Attempt α
  | [] => .retry
  | line :: rest =>
    if Contains line "black_end:" then
      let parts := Split line "black_end:"
      if parts.length > 1 then
        match Fields (parts.getD 1 "") with
        | [] => .panicked
        | endPart :: _ =>
          match parseFloat endPart with
          | some t => .returned t
          | none => scanLines parseFloat rest
      else scanLines parseFloat rest
    else scanLines parseFloat rest

/-- One iteration of the loop of `detectStartOffset` on the combined output
`out` of the probe subprocess. -/
def detectAttempt {α : Type} (parseFloat : String → Option α) (zero : α) (out : String) :
    Attempt α :=
  if !Contains out "black_start" then .returned zero
  else scanLines parseFloat (Split out "\n")

/-- The loop of `getFirstNonBlack`, `lastBlackEnd` being the accumulator. -/
def lastBlackEndLoop {α : Type} (parseFloat : String → Option α) :
    α → List String → Attempt α
  | lastBlackEnd, [] => .returned lastBlackEnd
  | lastBlackEnd, line :: rest =>
    if Contains line "black_end:" then
      let parts := Split line "black_end:"
      if parts.length > 1 then
        match Fields (parts.getD 1 "") with
        | [] => .panicked
        | endPart :: _ =>
          match parseFloat endPart with
          | some t => lastBlackEndLoop parseFloat t rest
          | none => lastBlackEndLoop parseFloat lastBlackEnd rest
      else lastBlackEndLoop parseFloat lastBlackEnd rest
    else lastBlackEndLoop parseFloat lastBlackEnd rest

/-- The function `getFirstNonBlack` (it has no caller in the program). -/
def getFirstNonBlack {α : Type} (parseFloat : String → Option α) (zero : α) (output : String) :
    Attempt α :=
  lastBlackEndLoop parseFloat zero (Split output "\n")

/-- How a run of `detectStartOffset` stands after the probe attempts whose
outputs are given; `attempts` counts the probe subprocesses run. -/
inductive ProbeRun (α : Type) where
  | returned (t : α) (attempts : Nat)
  | panicked (attempts : Nat)
  /-- Every attempt so far ended in a retry: the loop is still polling. -/
  | looping (attempts : Nat)
  deriving DecidableEq, Repr

/-- Worker of `detectStartOffset`, `n` attempts having been made. -/
def detectLoop {α : Type} (parseFloat : String → Option α) (zero : α) :
    Nat → List String → ProbeRun α
  | n, [] => .looping n
  | n, out :: rest =>
    match detectAttempt parseFloat zero out with
    | .returned t => .returned t (n + 1)
    | .panicked => .panicked (n + 1)
    | .retry => detectLoop parseFloat zero (n + 1) rest

/-- The function `detectStartOffset`, run on the outputs of the successive
probe subprocesses. -/
def detectStartOffset {α : Type} (parseFloat : String → Option α) (zero : α)
    (outputs : List String) : ProbeRun α :=
  detectLoop parseFloat zero 0 outputs

/-! ## Formatting -/

/-- The decimal digit `d % 10` as a character. -/
def digitChar (d : Nat) : Char :=
  Char.ofNat (48 + d % 10)

/-- Worker of `natDigits`: the digits of `n`, most significant first, put in
front of `acc`. -/
def natDigitsGo : Nat → Nat → List Char → List Char
  | 0, _, acc => acc
  | fuel + 1, n, acc =>
    if n < 10 then digitChar n :: acc
    else natDigitsGo fuel (n / 10) (digitChar n :: acc)

/-- The decimal digits of a natural number. -/
def natDigits (n : Nat) : List Char :=
  natDigitsGo (n + 1) n []

/-- The quotient `a / d` rounded to the nearest integer, ties to even. -/
def roundHalfEven (a d : Nat) : Nat :=
  let q := a / d
  let r := a % d
  if 2 * r < d then q
  else if d < 2 * r then q + 1
  else if q % 2 = 0 then q else q + 1

/-! ## The type `float64` -/

/-- A value of type `float64`. A finite value is given by its exact rational
value; the two zeros are not told apart (the program renders only
differences `x - 1`, and such a difference is never the negative zero). -/
inductive Float64 where
  | finite (q : ℚ)
  | inf (negative : Bool)
  | nan
  deriving DecidableEq, Repr

instance : OfNat Float64 0 := ⟨.finite 0⟩

instance : OfNat Float64 1 := ⟨.finite 1⟩

/-- Worker of `natLog2`. -/
def natLog2Go : Nat → Nat → Nat
  | 0, _ => 0
  | fuel + 1, n => if n < 2 then 0 else natLog2Go fuel (n / 2) + 1

/-- The position of the highest set bit of `n` (0 for `n = 0`). -/
def natLog2 (n : Nat) : Nat :=
  natLog2Go n n

/-- The integer `e` with `2 ^ e ≤ n / d < 2 ^ (e + 1)`, for positive `n`
and `d`. -/
def floorLog2 (n d : Nat) : Int :=
  let e0 : Int := (natLog2 n : Int) - (natLog2 d : Int)
  if d * 2 ^ e0.toNat ≤ n * 2 ^ (-e0).toNat then e0 else e0 - 1

/-- The exponent of the unit in the last place of the float64 values around
`num / den`: 53 significant bits for magnitudes from `2 ^ (-1022)` on,
multiples of `2 ^ (-1074)` below. -/
def quantumExp (num : Int) (den : Nat) : Int :=
  max (floorLog2 num.natAbs den) (-1022) - 52

/-- The magnitude of `num / den` in units in the last place, rounded to the
nearest integer, ties to even. -/
def significand (num : Int) (den : Nat) : Nat :=
  roundHalfEven (num.natAbs * 2 ^ (-quantumExp num den).toNat)
    (den * 2 ^ (quantumExp num den).toNat)

/-- The float64 nearest to `num / den`, ties to the even significand
(IEEE 754 round-to-nearest-even, binary64); an infinity once the rounded
magnitude reaches `2 ^ 1024`. -/
def roundToFloat64 (num : Int) (den : Nat) : Float64 :=
  if num = 0 then .finite 0
  else if 1024 ≤ floorLog2 num.natAbs den ∨
      (floorLog2 num.natAbs den = 1023 ∧ significand num den = 2 ^ 53) then
    .inf (decide (num < 0))
  else
    .finite (mkRat
      ((if num < 0 then -1 else 1) *
        ((significand num den * 2 ^ (quantumExp num den).toNat : Nat) : Int))
      (2 ^ (-quantumExp num den).toNat))

/-- The operator `-` on `float64`. -/
def Float64.sub : Float64 → Float64 → Float64
  | .nan, _ => .nan
  | _, .nan => .nan
  | .inf s, .inf t => if s = t then .nan else .inf s
  | .inf s, .finite _ => .inf s
  | .finite _, .inf t => .inf (!t)
  | .finite a, .finite b => roundToFloat64 (a.num * b.den - b.num * a.den) (a.den * b.den)

instance : Sub Float64 := ⟨Float64.sub⟩

/-- The rendering `fmt.Sprintf("%.3f", x)`: for a finite value the sign, the
integer part, and three decimals of `x` rounded to the nearest thousandth,
ties to even. -/
def sprintf3 : Float64 → String
  | .nan => "NaN"
  | .inf false => "+Inf"
  | .inf true => "-Inf"
  | .finite x =>
    let n := roundHalfEven (x.num.natAbs * 1000) x.den
    String.mk ((if x.num < 0 then ['-'] else []) ++ natDigits (n / 1000) ++
      ['.', digitChar (n / 100), digitChar (n / 10), digitChar n])

/-- The natural number a list of decimal digits denotes. -/
def digitsValue (cs : List Char) : Nat :=
  cs.foldl (fun acc c => acc * 10 + (c.toNat - 48)) 0

/-- The reading of a decimal numeral with exactly three decimals, such as
"-12.340": whether it has a minus sign, and the number of thousandths it
denotes (12340). -/
def readFixed3 (s : String) : Option (Bool × Nat) :=
  let negative := s.data.head? == some '-'
  let body := if negative then s.data.tail else s.data
  let whole := body.takeWhile Char.isDigit
  match body.dropWhile Char.isDigit with
  | ['.', a, b, c] =>
    if !whole.isEmpty && a.isDigit && b.isDigit && c.isDigit then
      some (negative, digitsValue (whole ++ [a, b, c]))
    else none
  | _ => none

/-- The library functions the program calls on values: `strconv.ParseFloat`
(`none` when it returns an error), `filepath.Join`, `filepath.Dir`. -/
structure GoLib where
  parseFloat : String → Option Float64
  join : String → String → String
  dir : String → String

/-- What the operating system answers during one run of a handler or of the
completion goroutine. An error is its message; `none` is the nil error. -/
structure World where
  /-- Value of `time.Now().Format("20060102_150405")`. -/
  now : String
  /-- Value of `os.Getwd()`. -/
  wd : String
  /-- Value of `os.Getenv("SUDO_USER")`. -/
  sudoUser : String
  /-- Value of `os.Getenv("USER")`. -/
  user : String
  /-- Error of `recordCmd.Start()`. -/
  startErr : Option String
  /-- Process created by a successful `recordCmd.Start()`. -/
  pid : Nat
  /-- Combined outputs of the successive probe subprocesses. -/
  probeOutputs : List String
  /-- Combined output of the single-frame capture. -/
  captureOut : String
  /-- Error of the single-frame capture. -/
  captureErr : Option String
  /-- Error of `recordCmd.Process.Signal(os.Interrupt)`. -/
  signalErr : Option String
  /-- Combined output of the re-encode subprocess. -/
  trimOut : String
  /-- Error of the re-encode subprocess. -/
  trimErr : Option String
  /-- Error of `os.Rename`. -/
  renameErr : Option String

/-- A value of type `exec.Cmd`; `process` is its field `Process`, nil until
`Start` succeeds. -/
structure Cmd where
  path : String
  args : List String
  process : Option Nat
  deriving DecidableEq, Repr

/-- The global variables `isRecording` and `recordCmd`. -/
structure State where
  isRecording : Bool
  recordCmd : Option Cmd
  deriving DecidableEq, Repr

/-- The side effects. -/
inductive Event where
  /-- The call `client.Publish(StatusTopic, 0, false, msg)`. -/
  | publish (msg : String)
  /-- A successful `Start`: process `pid` now runs with these arguments. -/
  | started (pid : Nat) (args : List String)
  /-- A subprocess run to its end (`CombinedOutput`). -/
  | ran (path : String) (args : List String)
  /-- The call `Process.Signal(os.Interrupt)` on process `pid`. -/
  | signalled (pid : Nat)
  /-- Return of `Wait` on process `pid`. -/
  | waited (pid : Nat)
  /-- The call `os.Rename(src, dst)`. -/
  | renamed (src dst : String)
  /-- An assignment to `isRecording`. -/
  | setRecording (b : Bool)
  /-- Entry into `trimVideo`. -/
  | trimCalled (filePath : String) (startOffset : Float64)
  deriving DecidableEq, Repr

/-- The goroutine launched at the end of `startRecording`, with the variables
its closure captures. -/
structure Task where
  filename : String
  startOffset : Float64
  deriving DecidableEq, Repr

/-- How a run of a handler ends. -/
inductive Exit where
  | returned
  /-- Still inside the polling loop of `detectStartOffset`. -/
  | blocked
  | panicked
  deriving DecidableEq, Repr

/-- Outcome of one run of a handler or goroutine body. -/
structure Result where
  state : State
  events : List Event
  spawned : List Task
  exit : Exit
  deriving DecidableEq, Repr

def CapturesDir : String := "./captures"

def rtspUrl : String := "rtsp://camera-mediamtx:8554/webcam"

/-- Arguments of the probe subprocess of `detectStartOffset`. -/
def probeArgs (rtspURL : String) : List String :=
  ["-rtsp_transport", "tcp", "-i", rtspURL, "-vframes", "1",
   "-vf", "blackdetect=d=0.1:pix_th=0.01", "-an", "-f", "null", "-"]

/-- The events of `n` probe attempts. -/
def probeEvents (rtspURL : String) (n : Nat) : List Event :=
  List.replicate n (.ran "ffmpeg" (probeArgs rtspURL))

/-- The function `chownFileToUser`. -/
def chownFileToUser (w : World) (filePath : String) : List Event :=
  let targetUser := if w.sudoUser = "" then w.user else w.sudoUser
  if targetUser = "" then []
  else [.ran "chown" [targetUser ++ ":" ++ targetUser, filePath]]

/-- Arguments of the re-encode subprocess of `trimVideo`. -/
def trimArgs (filePath : String) (startOffset : Float64) (tempFile : String) : List String :=
  ["-i", filePath, "-ss", sprintf3 (startOffset - 1), "-c:v", "libx264",
   "-preset", "ultrafast", "-c:a", "aac", tempFile, "-y"]

/-- The function `trimVideo`: its events and the error it returns. -/
def trimVideo (L : GoLib) (w : World) (filePath : String) (startOffset : Float64) :
    List Event × Option String :=
  let dir := L.dir filePath
  let tempFile := L.join dir "temp_trimmed.mp4"
  let run : List Event :=
    [.trimCalled filePath startOffset, .ran "ffmpeg" (trimArgs filePath startOffset tempFile)]
  match w.trimErr with
  | some err => (run, some ("ffmpeg trim error: " ++ w.trimOut ++ ", " ++ err))
  | none =>
    match w.renameErr with
    | some err =>
      (run ++ [.renamed tempFile filePath], some ("failed to overwrite original file: " ++ err))
    | none => (run ++ [.renamed tempFile filePath], none)

/-- The function `captureImage`. -/
def captureImage (L : GoLib) (w : World) (s : State) : Result :=
  let filename := L.join CapturesDir ("picture_" ++ w.now ++ ".jpg")
  let args := ["-i", rtspUrl, "-frames:v", "1", "-f", "image2", filename,
    "-loglevel", "error", "-y"]
  match detectStartOffset L.parseFloat 0 w.probeOutputs with
  | .looping n => ⟨s, probeEvents rtspUrl n, [], .blocked⟩
  | .panicked n => ⟨s, probeEvents rtspUrl n, [], .panicked⟩
  | .returned _ n =>
    let begun := probeEvents rtspUrl n ++
      [.publish "Image capturing started now!", .ran "ffmpeg" args]
    match w.captureErr with
    | some _ => ⟨s, begun ++ [.publish ("ERROR: Capture failed: " ++ w.captureOut)], [], .returned⟩
    | none =>
      let absolutePath := L.join w.wd filename
      ⟨s, begun ++ chownFileToUser w absolutePath ++
        [.publish ("SUCCESS: Image saved to " ++ absolutePath)], [], .returned⟩

/-- Arguments of the recording subprocess. -/
def recordArgs (duration filename : String) : List String :=
  ["-rtsp_transport", "tcp", "-t", duration, "-i", rtspUrl, "-vcodec", "libx264",
   "-pix_fmt", "yuv420p", filename, "-y"]

/-- The function `startRecording`, up to and including the `go` statement. -/
def startRecording (L : GoLib) (w : World) (s : State) (duration : String) : Result :=
  if s.isRecording then ⟨s, [.publish "Recording already in progress"], [], .returned⟩
  else
    let filename := L.join CapturesDir ("video_" ++ w.now ++ ".mp4")
    let args := recordArgs duration filename
    match w.startErr with
    | some err =>
      ⟨⟨s.isRecording, some ⟨"ffmpeg", args, none⟩⟩,
        [.publish ("ERROR: Failed to start recording: " ++ err)], [], .returned⟩
    | none =>
      let s1 : State := ⟨true, some ⟨"ffmpeg", args, some w.pid⟩⟩
      let begun : List Event := [.started w.pid args, .setRecording true]
      match detectStartOffset L.parseFloat 0 w.probeOutputs with
      | .looping n => ⟨s1, begun ++ probeEvents rtspUrl n, [], .blocked⟩
      | .panicked n => ⟨s1, begun ++ probeEvents rtspUrl n, [], .panicked⟩
      | .returned startOffset n =>
        ⟨s1, begun ++ probeEvents rtspUrl n ++ [.publish "The Recording Starts Now!"],
          [⟨filename, startOffset⟩], .returned⟩

/-- The status published after `trimVideo` returned `err`. -/
def trimStatus (absolutePath : String) (err : Option String) : String :=
  match err with
  | some e => "ERROR trimming video: " ++ e
  | none => "Trimmed video saved: " ++ absolutePath

/-- The body of the goroutine of `startRecording`, run from the moment
`recordCmd.Wait()` returns. `recordCmd` is the global variable, read when the
goroutine runs. -/
def completionTask (L : GoLib) (w : World) (s : State) (t : Task) : Result :=
  match s.recordCmd with
  | none => ⟨s, [], [], .panicked⟩
  | some cmd =>
    let waitEvents : List Event :=
      match cmd.process with
      | some pid => [.waited pid]
      | none => []
    let absolutePath := L.join w.wd t.filename
    let trim := trimVideo L w absolutePath t.startOffset
    ⟨⟨false, s.recordCmd⟩,
      waitEvents ++ [.setRecording false, .publish "The Recording Stops Now!"] ++
        chownFileToUser w absolutePath ++ trim.1 ++
        [.publish (trimStatus absolutePath trim.2),
         .publish ("Recording stopped: " ++ absolutePath)],
      [], .returned⟩

/-- The function `stopRecording`. -/
def stopRecording (w : World) (s : State) : Result :=
  match s.isRecording, s.recordCmd with
  | true, some ⟨_, _, some pid⟩ =>
    match w.signalErr with
    | some err => ⟨s, [.signalled pid, .publish ("ERROR stopping recording: " ++ err)], [], .returned⟩
    | none => ⟨s, [.signalled pid, .publish "Recording stopping..."], [], .returned⟩
  | _, _ => ⟨s, [.publish "No recording in progress"], [], .returned⟩

/-- The handler `actionHandler` on a message with payload `msgPayload`. -/
def actionHandler (L : GoLib) (w : World) (s : State) (msgPayload : String) : Result :=
  let payload := TrimSpace msgPayload
  if payload = "" then ⟨s, [], [], .returned⟩
  else
    match Fields payload with
    | [] => ⟨s, [], [], .panicked⟩
    | action :: rest =>
      if action = "picture" then captureImage L w s
      else if action = "record" then startRecording L w s (rest.headD "")
      else if action = "stop" then stopRecording w s
      else ⟨s, [.publish ("ERROR: Unknown action: " ++ payload)], [], .returned⟩

/-! ## The controller as a transition system -/

/-- The program between two steps: the globals, the completion goroutines
waiting in `recordCmd.Wait()`, everything done so far, and whether the
message loop has stopped (a handler panicked or never returns). -/
structure System where
  state : State
  tasks : List Task
  trace : List Event
  halted : Bool
  deriving DecidableEq, Repr

/-- What can happen next: a message arrives on the action topic, or the
recording process ends and the oldest waiting goroutine resumes. Messages are
handled one at a time. -/
inductive Input where
  | message (w : World) (payload : String)
  | processExit (w : World)

/-- The system after a handler or goroutine body with outcome `r` has run. -/
def System.after (sys : System) (tasks : List Task) (r : Result) : System :=
  ⟨r.state, tasks ++ r.spawned, sys.trace ++ r.events, r.exit != .returned⟩

/-- One step of the system. -/
def step (L : GoLib) (sys : System) : Input → System
  | .message w payload =>
    if sys.halted then sys else sys.after sys.tasks (actionHandler L w sys.state payload)
  | .processExit w =>
    if sys.halted then sys
    else
      match sys.tasks with
      | [] => sys
      | t :: ts => sys.after ts (completionTask L w sys.state t)

/-- The system after a sequence of inputs. -/
def run (L : GoLib) (sys : System) (inputs : List Input) : System :=
  inputs.foldl (step L) sys

/-- The program at start-up: `isRecording = false`, `recordCmd = nil`. -/
def initial : System :=
  ⟨⟨false, none⟩, [], [], false⟩

/-- Bookkeeping of processes over one event: a started process is added, a
waited one removed. -/
def track (live : List Nat) : Event → List Nat
  | .started pid _ => live ++ [pid]
  | .waited pid => live.erase pid
  | _ => live

/-- The processes of a trace that were started and not yet waited on. -/
def unwaited (trace : List Event) : List Nat :=
  trace.foldl track []

/-- The statuses published by a list of events, in order. -/
def published (events : List Event) : List String :=
  events.filterMap fun e =>
    match e with
    | .publish msg => some msg
    | _ => none

/-- The number of times a list of events clears `isRecording`. -/
def clears (events : List Event) : Nat :=
  events.countP fun e =>
    match e with
    | .setRecording false => true
    | _ => false

/-- The number of calls of `trimVideo` in a list of events. -/
def trims (events : List Event) : Nat :=
  events.countP fun e =>
    match e with
    | .trimCalled _ _ => true
    | _ => false

/-- The inputs that deliver the given messages in order. -/
def messages (msgs : List (World × String)) : List Input :=
  msgs.map fun x => .message x.1 x.2

/-- A model of `path/filepath` on clean slash-separated operands: `join`
puts a slash between its operands and drops a leading "./", `dir` drops the
last component. -/
def posix : GoLib where
  parseFloat := fun _ => none
  join := fun a b =>
    let p := a ++ "/" ++ b
    if "./".data.isPrefixOf p.data then String.mk (p.data.drop 2) else p
  dir := fun p => String.mk ((p.data.reverse.dropWhile (· != '/')).drop 1).reverse

/-- A world in which every subprocess succeeds and the first probe sees no
blank segment. -/
def calm : World where
  now := "20240101_120000"
  wd := "/app"
  sudoUser := ""
  user := "cam"
  startErr := none
  pid := 7
  probeOutputs := ["frame=    1 fps=0.0"]
  captureOut := ""
  captureErr := none
  signalErr := none
  trimOut := ""
  trimErr := none
  renameErr := none

/-- The state in the middle of a recording, as `startRecording` leaves it in
the world `calm`. -/
def recordingState : State :=
  (startRecording posix calm ⟨false, none⟩ "10").state

/-- A world like `calm` in which the probe keeps reporting a blank segment
that has not ended. -/
def stuck : World :=
  { calm with
    probeOutputs := ["[blackdetect @ 0x1] black_start:0", "[blackdetect @ 0x1] black_start:0"] }

/-- The probe output with two blank segments, ending at 1.2 and at 3.4. -/
def twoSegments : String :=
  "black_start:0 black_end:1.2 black_duration:1.2\nblack_start:2.5 black_end:3.4 black_duration:0.9"

/-- The effect of a handler run on the globals and on the processes: it
leaves both alone, or it is a failed start from the idle state, or it is a
successful start from the idle state. -/
def Tame (s : State) (r : Result) : Prop :=
  (r.state = s ∧ r.spawned = [] ∧ ∀ live, r.events.foldl track live = live) ∨
  (s.isRecording = false ∧ r.state.isRecording = false ∧ r.spawned = [] ∧
    ∀ live, r.events.foldl track live = live) ∨
  (s.isRecording = false ∧ r.spawned.length ≤ 1 ∧
    ∃ args pid, r.state = ⟨true, some ⟨"ffmpeg", args, some pid⟩⟩ ∧
      ∀ live, r.events.foldl track live = live ++ [pid])

/-- The invariant of the controller: while `isRecording` is set,
`recordCmd` holds the one process started and not yet waited on, and at most
one completion goroutine waits; while it is clear, no such process and no
waiting goroutine exists. -/
def Inv (sys : System) : Prop :=
  (sys.state.isRecording = true →
    (∃ c pid, sys.state.recordCmd = some c ∧ c.process = some pid ∧
      unwaited sys.trace = [pid]) ∧ sys.tasks.length ≤ 1) ∧
  (sys.state.isRecording = false → unwaited sys.trace = [] ∧ sys.tasks = [])

/-! ## Facts about the embedding -/

theorem published_append (xs ys : List Event) :
    published (xs ++ ys) = published xs ++ published ys := by
  simp [published, List.filterMap_append]

theorem published_nil : published [] = [] := rfl

theorem published_publish (msg : String) (xs : List Event) :
    published (.publish msg :: xs) = msg :: published xs := rfl

theorem published_started (pid : Nat) (args : List String) (xs : List Event) :
    published (.started pid args :: xs) = published xs := rfl

theorem published_ran (path : String) (args : List String) (xs : List Event) :
    published (.ran path args :: xs) = published xs := rfl

theorem published_signalled (pid : Nat) (xs : List Event) :
    published (.signalled pid :: xs) = published xs := rfl

theorem published_waited (pid : Nat) (xs : List Event) :
    published (.waited pid :: xs) = published xs := rfl

theorem published_setRecording (b : Bool) (xs : List Event) :
    published (.setRecording b :: xs) = published xs := rfl

theorem published_probeEvents (url : String) (n : Nat) : published (probeEvents url n) = [] := by
  induction n with
  | zero => rfl
  | succ k ih =>
    simp only [probeEvents, List.replicate_succ] at ih ⊢
    simp only [published, List.filterMap_cons] at ih ⊢
    exact ih

theorem published_chown (w : World) (p : String) : published (chownFileToUser w p) = [] := by
  simp only [chownFileToUser]
  split_ifs <;> rfl

theorem published_trimVideo (L : GoLib) (w : World) (p : String) (o : Float64) :
    published (trimVideo L w p o).1 = [] := by
  unfold trimVideo
  rcases w.trimErr with _ | e
  · rcases w.renameErr with _ | e2 <;> rfl
  · rfl

theorem Fields_sample : Fields " record \t10\n" = ["record", "10"] := by decide

theorem Split_sample :
    Split "x black_end:1.2 y black_end:3" "black_end:" = ["x ", "1.2 y ", "3"] ∧
      Split "a\nb\n" "\n" = ["a", "b", ""] ∧ Split "" "\n" = [""] := by decide

theorem roundToFloat64_sample :
    roundToFloat64 1 10 = .finite (mkRat 3602879701896397 36028797018963968) ∧
      roundToFloat64 (2 ^ 53 + 1) 1 = .finite (mkRat (2 ^ 53) 1) ∧
      roundToFloat64 (2 ^ 53 + 3) 1 = .finite (mkRat (2 ^ 53 + 4) 1) ∧
      roundToFloat64 (-3) 2 = .finite (mkRat (-3) 2) := by decide

theorem sprintf3_sample :
    sprintf3 (.finite (-1)) = "-1.000" ∧ sprintf3 0 = "0.000" ∧
      sprintf3 (.finite (mkRat 1 2)) = "0.500" ∧ sprintf3 (.finite (mkRat 12345 10000)) = "1.234" ∧
      sprintf3 (.finite (mkRat 12355 10000)) = "1.236" ∧
      sprintf3 (.finite (mkRat (-1) 10000)) = "-0.000" ∧
      sprintf3 (.inf false) = "+Inf" ∧ sprintf3 .nan = "NaN" := by decide

theorem readFixed3_sample :
    readFixed3 "-12.340" = some (true, 12340) ∧ readFixed3 "0.999" = some (false, 999) ∧
      readFixed3 "1.23" = none ∧ readFixed3 "+Inf" = none := by decide

theorem posix_sample :
    posix.join CapturesDir "video_x.mp4" = "captures/video_x.mp4" ∧
      posix.dir "/app/captures/video_x.mp4" = "/app/captures" := by decide

theorem detectLoop_returns (parseFloat : String → Option ℚ) (zero t : ℚ) (pre post : List String)
    (out : String) (k : Nat) (hpre : ∀ o ∈ pre, detectAttempt parseFloat zero o = .retry)
    (hout : detectAttempt parseFloat zero out = .returned t) :
    detectLoop parseFloat zero k (pre ++ out :: post) = .returned t (k + pre.length + 1) := by
  induction pre generalizing k with
  | nil => simp [detectLoop, hout]
  | cons o os ih =>
    have ho := hpre o (List.mem_cons_self _ _)
    have hos : ∀ x ∈ os, detectAttempt parseFloat zero x = .retry :=
      fun x hx => hpre x (List.mem_cons_of_mem _ hx)
    have hk : k + 1 + os.length + 1 = k + (os.length + 1) + 1 := by omega
    have hstep : detectLoop parseFloat zero k (o :: (os ++ out :: post)) =
        detectLoop parseFloat zero (k + 1) (os ++ out :: post) := by
      simp only [detectLoop, ho]
    rw [List.cons_append, hstep, ih (k + 1) hos, List.length_cons, hk]

theorem scanLines_retry (parseFloat : String → Option ℚ) (lines : List String)
    (h : ∀ line ∈ lines, Contains line "black_end:" = false ∨
      ∃ tok rest, Fields ((Split line "black_end:").getD 1 "") = tok :: rest ∧
        parseFloat tok = none) :
    scanLines parseFloat lines = .retry := by
  induction lines with
  | nil => rfl
  | cons line rest ih =>
    have hrest := ih fun x hx => h x (List.mem_cons_of_mem _ hx)
    rcases h line (List.mem_cons_self _ _) with hc | ⟨tok, more, hf, hp⟩
    · simp [scanLines, hc, hrest]
    · simp only [scanLines, hf, hp, hrest]
      split_ifs <;> rfl

/-! ### Numerals and float64 rounding -/

theorem digitChar_isDigit (d : Nat) : (digitChar d).isDigit = true := by
  have h : d % 10 < 10 := Nat.mod_lt _ (by norm_num)
  unfold digitChar
  generalize d % 10 = k at h
  interval_cases k <;> rfl

theorem digitChar_ne_minus (d : Nat) : digitChar d ≠ '-' := by
  have h : d % 10 < 10 := Nat.mod_lt _ (by norm_num)
  unfold digitChar
  generalize d % 10 = k at h
  interval_cases k <;> decide

theorem natDigitsGo_digits (fuel n : Nat) (acc : List Char)
    (hacc : ∀ c ∈ acc, c.isDigit = true) :
    ∀ c ∈ natDigitsGo fuel n acc, c.isDigit = true := by
  induction fuel generalizing n acc with
  | zero => simpa [natDigitsGo] using hacc
  | succ f ih =>
    unfold natDigitsGo
    have hcons : ∀ c ∈ digitChar n :: acc, c.isDigit = true := by
      intro c hc
      rcases List.mem_cons.mp hc with rfl | hc
      · exact digitChar_isDigit n
      · exact hacc c hc
    split_ifs
    · exact hcons
    · exact ih _ _ hcons

theorem natDigitsGo_ne_nil (fuel n : Nat) (acc : List Char) :
    natDigitsGo (fuel + 1) n acc ≠ [] := by
  induction fuel generalizing n acc with
  | zero =>
    unfold natDigitsGo
    split_ifs
    · simp
    · simp [natDigitsGo]
  | succ f ih =>
    unfold natDigitsGo
    split_ifs
    · simp
    · exact ih _ _

theorem natDigits_digits (n : Nat) : ∀ c ∈ natDigits n, c.isDigit = true :=
  natDigitsGo_digits _ _ _ (by simp)

theorem natDigits_ne_nil (n : Nat) : natDigits n ≠ [] :=
  natDigitsGo_ne_nil _ _ _

/-- C2: when no recording is active (`isRecording` false, or `recordCmd` nil,
or `recordCmd.Process` nil), `stopRecording` publishes exactly the status
"No recording in progress", sends no signal, starts no process and leaves
`isRecording` and `recordCmd` as they were. -/
theorem stopRecording_rejects_when_idle (w : World) (s : State)
    (h : s.isRecording = false ∨ s.recordCmd = none ∨
      ∃ c, s.recordCmd = some c ∧ c.process = none) :
    stopRecording w s = ⟨s, [.publish "No recording in progress"], [], .returned⟩ := by
  obtain ⟨r, c⟩ := s
  rcases h with h | h | ⟨c', h, hp⟩
  · simp only at h
    subst h
    rfl
  · simp only at h
    subst h
    cases r <;> rfl
  · simp only at h
    subst h
    obtain ⟨p, a, pr⟩ := c'
    simp only at hp
    subst hp
    cases r <;> rfl

theorem stopRecording_rejects_when_idle_witness :
    stopRecording calm ⟨true, some ⟨"ffmpeg", [], none⟩⟩ =
      ⟨⟨true, some ⟨"ffmpeg", [], none⟩⟩, [.publish "No recording in progress"], [],
        .returned⟩ :=
  stopRecording_rejects_when_idle calm ⟨true, some ⟨"ffmpeg", [], none⟩⟩
    (Or.inr (Or.inr ⟨⟨"ffmpeg", [], none⟩, rfl, rfl⟩))

/-- C4: on an output with blank-end markers 1.2 then 3.4 the attempt of
`detectStartOffset` returns the value of the first marker, 1.2, where the
claim (and `getFirstNonBlack`, and the comment in the code) give the last,
3.4. -/
theorem detectAttempt_returns_first_marker (parseFloat : String → Option ℚ) (zero a b : ℚ)
    (h1 : parseFloat "1.2" = some a) (h2 : parseFloat "3.4" = some b) :
    detectAttempt parseFloat zero twoSegments = .returned a ∧
      getFirstNonBlack parseFloat zero twoSegments = .returned b := by
  have hs : Split twoSegments "\n" =
      ["black_start:0 black_end:1.2 black_duration:1.2",
       "black_start:2.5 black_end:3.4 black_duration:0.9"] := by decide
  have hc : Contains twoSegments "black_start" = true := by decide
  have c1 : Contains "black_start:0 black_end:1.2 black_duration:1.2" "black_end:" = true := by
    decide
  have c2 : Contains "black_start:2.5 black_end:3.4 black_duration:0.9" "black_end:" = true := by
    decide
  have p1 : Split "black_start:0 black_end:1.2 black_duration:1.2" "black_end:" =
      ["black_start:0 ", "1.2 black_duration:1.2"] := by decide
  have p2 : Split "black_start:2.5 black_end:3.4 black_duration:0.9" "black_end:" =
      ["black_start:2.5 ", "3.4 black_duration:0.9"] := by decide
  have f1 : Fields "1.2 black_duration:1.2" = ["1.2", "black_duration:1.2"] := by decide
  have f2 : Fields "3.4 black_duration:0.9" = ["3.4", "black_duration:0.9"] := by decide
  constructor
  · simp [detectAttempt, hc, hs, scanLines, c1, p1, f1, h1]
  · simp [getFirstNonBlack, hs, lastBlackEndLoop, c1, c2, p1, p2, f1, f2, h1, h2]

theorem detectAttempt_returns_first_marker_witness :
    detectAttempt
        (fun s => if s = "1.2" then some (6 / 5 : ℚ) else if s = "3.4" then some (17 / 5) else none)
        0 twoSegments = .returned (6 / 5) ∧
      getFirstNonBlack
        (fun s => if s = "1.2" then some (6 / 5 : ℚ) else if s = "3.4" then some (17 / 5) else none)
        0 twoSegments = .returned (17 / 5) :=
  detectAttempt_returns_first_marker _ 0 (6 / 5) (17 / 5) rfl rfl

/-- C10: on an output that has a blank-segment marker and a `black_end:`
followed by nothing but whitespace on its line, the parsing step of
`detectStartOffset` does not retry: it indexes the empty token list and
panics, whatever `ParseFloat` does. -/
theorem detectAttempt_panics_on_blank_end (parseFloat : String → Option ℚ) (zero : ℚ) :
    detectAttempt parseFloat zero "black_start:0\nblack_end: \n" = .panicked := by
  have hs : Split "black_start:0\nblack_end: \n" "\n" = ["black_start:0", "black_end: ", ""] := by
    decide
  have hc : Contains "black_start:0\nblack_end: \n" "black_start" = true := by decide
  have c1 : Contains "black_start:0" "black_end:" = false := by decide
  have c2 : Contains "black_end: " "black_end:" = true := by decide
  have p2 : Split "black_end: " "black_end:" = ["", " "] := by decide
  have f2 : Fields " " = [] := by decide
  simp [detectAttempt, hc, hs, scanLines, c1, c2, p2, f2]

theorem not_renamed_chown (w : World) (p src dst : String) :
    Event.renamed src dst ∉ chownFileToUser w p := by
  simp only [chownFileToUser]
  split_ifs <;> simp

theorem sprintf3_head_nonneg (y : ℚ) (h : 0 ≤ y) :
    (sprintf3 (.finite y)).data.head? ≠ some '-' := by
  have hneg : ¬ y.num < 0 := fun hn => absurd (Rat.num_neg.mp hn) (not_lt.mpr h)
  obtain ⟨c0, cs, hcs⟩ := List.exists_cons_of_ne_nil
    (natDigits_ne_nil (roundHalfEven (y.num.natAbs * 1000) y.den / 1000))
  have hc0 : c0 ≠ '-' := by
    intro hc
    have := natDigits_digits _ c0 (by rw [hcs]; exact List.mem_cons_self _ _)
    rw [hc] at this
    exact absurd this (by decide)
  simp [sprintf3, hneg, hcs, hc0]

/-- C3, as the claim states it, fails: with a recording in progress
`captureImage` runs the probe, publishes "Image capturing started now!", runs
the single-frame capture and publishes the success status. -/
theorem captureImage_runs_while_recording :
    recordingState.isRecording = true ∧
      captureImage posix calm recordingState =
        ⟨recordingState,
          [.ran "ffmpeg" (probeArgs rtspUrl),
           .publish "Image capturing started now!",
           .ran "ffmpeg" ["-i", rtspUrl, "-frames:v", "1", "-f", "image2",
             "captures/picture_20240101_120000.jpg", "-loglevel", "error", "-y"],
           .ran "chown" ["cam:cam", "/app/captures/picture_20240101_120000.jpg"],
           .publish "SUCCESS: Image saved to /app/captures/picture_20240101_120000.jpg"],
          [], .returned⟩ := by
  decide

/-- C3, amended: `captureImage` does not look at `isRecording`. In every
state, a recording being in progress or not, it leaves `isRecording` and `recordCmd` unchanged and
launches no goroutine, and once the probe has returned it publishes "Image
capturing started now!", runs the single-frame capture and publishes the
failure or success status: it is not rejected. -/
theorem captureImage_ignores_recording (L : GoLib) (w : World) (s : State) (t : Float64)
    (n : Nat)
    (hprobe : detectStartOffset L.parseFloat 0 w.probeOutputs = .returned t n) :
    (captureImage L w s).state = s ∧ (captureImage L w s).spawned = [] ∧
      (captureImage L w s).exit = .returned ∧
      (captureImage L w s).events =
        probeEvents rtspUrl n ++
          [.publish "Image capturing started now!",
           .ran "ffmpeg" ["-i", rtspUrl, "-frames:v", "1", "-f", "image2",
             L.join CapturesDir ("picture_" ++ w.now ++ ".jpg"), "-loglevel", "error", "-y"]] ++
          (match w.captureErr with
           | some _ => [.publish ("ERROR: Capture failed: " ++ w.captureOut)]
           | none =>
             chownFileToUser w (L.join w.wd (L.join CapturesDir ("picture_" ++ w.now ++ ".jpg")))
               ++ [.publish ("SUCCESS: Image saved to " ++
                 L.join w.wd (L.join CapturesDir ("picture_" ++ w.now ++ ".jpg")))]) := by
  simp only [captureImage, hprobe]
  rcases w.captureErr with _ | e <;> simp

theorem captureImage_ignores_recording_witness :
    (captureImage posix calm recordingState).state = recordingState ∧
      (captureImage posix calm recordingState).spawned = [] ∧
      (captureImage posix calm recordingState).exit = .returned ∧
      (captureImage posix calm recordingState).events =
        probeEvents rtspUrl 1 ++
          [.publish "Image capturing started now!",
           .ran "ffmpeg" ["-i", rtspUrl, "-frames:v", "1", "-f", "image2",
             posix.join CapturesDir ("picture_" ++ calm.now ++ ".jpg"), "-loglevel", "error",
             "-y"]] ++
          (match calm.captureErr with
           | some _ => [.publish ("ERROR: Capture failed: " ++ calm.captureOut)]
           | none =>
             chownFileToUser calm
                 (posix.join calm.wd (posix.join CapturesDir ("picture_" ++ calm.now ++ ".jpg")))
               ++ [.publish ("SUCCESS: Image saved to " ++
                 posix.join calm.wd
                   (posix.join CapturesDir ("picture_" ++ calm.now ++ ".jpg")))]) :=
  captureImage_ignores_recording posix calm recordingState 0 1 (by decide)

/-- C8, as the claim states it, fails: the completion goroutine publishes
three statuses, and the last one, "Recording stopped: ...", comes after the
trim result. -/
theorem completion_publishes_three :
    published (completionTask posix calm recordingState
        ⟨"captures/video_20240101_120000.mp4", 0⟩).events =
      ["The Recording Stops Now!",
       "Trimmed video saved: /app/captures/video_20240101_120000.mp4",
       "Recording stopped: /app/captures/video_20240101_120000.mp4"] := by
  decide

/-- C8, amended: for an accepted recording (the subprocess started and the
probe returned) `startRecording` publishes "The Recording Starts Now!" and
launches one completion goroutine, and that goroutine publishes, in order,
"The Recording Stops Now!", then the trim result (the error status when
`trimVideo` failed, the saved status otherwise), then "Recording stopped:
path": the first stopped status precedes the trim result and the second
follows it, for trim success and for trim failure. -/
theorem recording_status_order (L : GoLib) (w w2 : World) (s : State) (duration : String)
    (t : Float64) (n : Nat) (hidle : s.isRecording = false) (hstart : w.startErr = none)
    (hprobe : detectStartOffset L.parseFloat 0 w.probeOutputs = .returned t n) :
    published (startRecording L w s duration).events = ["The Recording Starts Now!"] ∧
      (startRecording L w s duration).spawned =
        [⟨L.join CapturesDir ("video_" ++ w.now ++ ".mp4"), t⟩] ∧
      published (completionTask L w2 (startRecording L w s duration).state
          ⟨L.join CapturesDir ("video_" ++ w.now ++ ".mp4"), t⟩).events =
        ["The Recording Stops Now!",
         (match (trimVideo L w2 (L.join w2.wd (L.join CapturesDir ("video_" ++ w.now ++ ".mp4")))
            t).2 with
          | some e => "ERROR trimming video: " ++ e
          | none => "Trimmed video saved: " ++
              L.join w2.wd (L.join CapturesDir ("video_" ++ w.now ++ ".mp4"))),
         "Recording stopped: " ++
           L.join w2.wd (L.join CapturesDir ("video_" ++ w.now ++ ".mp4"))] := by
  have hs : startRecording L w s duration =
      ⟨⟨true, some ⟨"ffmpeg", recordArgs duration (L.join CapturesDir ("video_" ++ w.now ++ ".mp4")),
          some w.pid⟩⟩,
        [.started w.pid (recordArgs duration (L.join CapturesDir ("video_" ++ w.now ++ ".mp4"))),
          .setRecording true] ++ probeEvents rtspUrl n ++ [.publish "The Recording Starts Now!"],
        [⟨L.join CapturesDir ("video_" ++ w.now ++ ".mp4"), t⟩], .returned⟩ := by
    simp only [startRecording, hidle, hstart, hprobe, Bool.false_eq_true, if_false]
  rw [hs]
  refine ⟨?_, rfl, ?_⟩
  · simp only [published_append, published_probeEvents, List.cons_append, List.nil_append,
      published_started, published_setRecording, published_publish, published_nil]
  · simp only [completionTask, published_append, published_chown, published_trimVideo,
      List.cons_append, List.nil_append, List.append_nil, published_waited,
      published_setRecording, published_publish, published_nil, trimStatus]

theorem recording_status_order_witness :
    published (startRecording posix calm ⟨false, none⟩ "10").events =
        ["The Recording Starts Now!"] ∧
      (startRecording posix calm ⟨false, none⟩ "10").spawned =
        [⟨posix.join CapturesDir ("video_" ++ calm.now ++ ".mp4"), 0⟩] ∧
      published (completionTask posix { calm with trimErr := some "exit status 1" }
          (startRecording posix calm ⟨false, none⟩ "10").state
          ⟨posix.join CapturesDir ("video_" ++ calm.now ++ ".mp4"), 0⟩).events =
        ["The Recording Stops Now!",
         (match (trimVideo posix { calm with trimErr := some "exit status 1" }
            (posix.join calm.wd (posix.join CapturesDir ("video_" ++ calm.now ++ ".mp4")))
            0).2 with
          | some e => "ERROR trimming video: " ++ e
          | none => "Trimmed video saved: " ++
              posix.join calm.wd (posix.join CapturesDir ("video_" ++ calm.now ++ ".mp4"))),
         "Recording stopped: " ++
           posix.join calm.wd (posix.join CapturesDir ("video_" ++ calm.now ++ ".mp4"))] :=
  recording_status_order posix calm { calm with trimErr := some "exit status 1" } ⟨false, none⟩
    "10" 0 1 rfl rfl (by decide)

/-! ### Tokens of a payload -/

theorem fieldsGo_eq_nil (s cur : List Char) (h : fieldsGo s cur = []) :
    cur = [] ∧ ∀ c ∈ s, isSpace c = true := by
  induction s generalizing cur with
  | nil =>
    cases cur with
    | nil => simp
    | cons a l => simp [fieldsGo] at h
  | cons c cs ih =>
    by_cases hc : isSpace c = true
    · cases cur with
      | nil =>
        simp only [fieldsGo, hc, if_true, List.isEmpty_nil] at h
        exact ⟨rfl, by
          intro x hx
          rcases List.mem_cons.mp hx with rfl | hx
          · exact hc
          · exact (ih [] h).2 x hx⟩
      | cons a l => simp [fieldsGo, hc] at h
    · simp only [fieldsGo, hc] at h
      have := (ih (c :: cur) h).1
      simp at this

theorem fieldsGo_dropWhile (s : List Char) :
    fieldsGo (s.dropWhile isSpace) [] = fieldsGo s [] := by
  induction s with
  | nil => rfl
  | cons c cs ih =>
    by_cases hc : isSpace c = true
    · simp [List.dropWhile_cons, hc, fieldsGo, ih]
    · simp [List.dropWhile_cons, hc]

theorem fieldsGo_concat_space (s cur : List Char) (c : Char) (hc : isSpace c = true) :
    fieldsGo (s ++ [c]) cur = fieldsGo s cur := by
  induction s generalizing cur with
  | nil => simp [fieldsGo, hc]
  | cons a l ih =>
    by_cases ha : isSpace a = true
    · simp [fieldsGo, ha, ih]
    · simp [fieldsGo, ha, ih]

theorem fieldsGo_rdropWhile (s cur : List Char) :
    fieldsGo (s.rdropWhile isSpace) cur = fieldsGo s cur := by
  induction s using List.reverseRecOn with
  | nil => simp
  | append_singleton l c ih =>
    by_cases hc : isSpace c = true
    · rw [List.rdropWhile_concat_pos _ _ _ hc, ih, fieldsGo_concat_space _ _ _ hc]
    · rw [List.rdropWhile_concat_neg _ _ _ hc]

theorem Fields_TrimSpace (p : String) : Fields (TrimSpace p) = Fields p := by
  simp only [Fields, TrimSpace, fieldsGo_rdropWhile, fieldsGo_dropWhile]

theorem TrimSpace_of_spaces (p : String) (h : ∀ c ∈ p.data, isSpace c = true) :
    TrimSpace p = "" := by
  have hd : p.data.dropWhile isSpace = [] := List.dropWhile_eq_nil_iff.mpr h
  simp only [TrimSpace, hd]
  rfl

theorem TrimSpace_ne_empty (p action : String) (rest : List String)
    (h : Fields p = action :: rest) : TrimSpace p ≠ "" := by
  intro he
  have h2 := Fields_TrimSpace p
  rw [he, h] at h2
  have h3 : Fields "" = [] := by decide
  rw [h3] at h2
  exact List.noConfusion h2

/-- C9: `actionHandler` invokes nothing on an empty or whitespace-only
payload; on a payload with tokens it runs exactly the operation the first
token selects ("picture": `captureImage`, "record": `startRecording` with the
second token, or the empty string, as duration, "stop": `stopRecording`) and
for any other first token it only publishes "ERROR: Unknown action: ...",
leaving the state unchanged; the trimmed payload, when not empty, has a first
token, so `parts[0]` is never out of range; and every payload is of one of
the two kinds. -/
theorem actionHandler_dispatch (L : GoLib) (w : World) (s : State) (p : String) :
    ((∀ c ∈ p.data, isSpace c = true) → actionHandler L w s p = ⟨s, [], [], .returned⟩) ∧
      (∀ action rest, Fields p = action :: rest →
        actionHandler L w s p =
          if action = "picture" then captureImage L w s
          else if action = "record" then startRecording L w s (rest.headD "")
          else if action = "stop" then stopRecording w s
          else ⟨s, [.publish ("ERROR: Unknown action: " ++ TrimSpace p)], [], .returned⟩) ∧
      (TrimSpace p ≠ "" → Fields (TrimSpace p) ≠ []) ∧
      ((∀ c ∈ p.data, isSpace c = true) ∨ ∃ action rest, Fields p = action :: rest) := by
  have hdich : (∀ c ∈ p.data, isSpace c = true) ∨ ∃ action rest, Fields p = action :: rest := by
    cases hf : Fields p with
    | nil =>
      left
      have : fieldsGo p.data [] = [] := by
        simpa [Fields] using hf
      exact (fieldsGo_eq_nil _ _ this).2
    | cons a l => exact Or.inr ⟨a, l, rfl⟩
  refine ⟨?_, ?_, ?_, hdich⟩
  · intro h
    simp [actionHandler, TrimSpace_of_spaces p h]
  · intro action rest h
    have hne := TrimSpace_ne_empty p action rest h
    simp only [actionHandler, hne, if_false, Fields_TrimSpace, h]
  · intro hne hnil
    rw [Fields_TrimSpace] at hnil
    rcases hdich with hsp | ⟨a, l, hal⟩
    · exact hne (TrimSpace_of_spaces p hsp)
    · rw [hal] at hnil
      exact absurd hnil (by simp)

theorem actionHandler_dispatch_witness :
    actionHandler posix calm ⟨false, none⟩ " \n" = ⟨⟨false, none⟩, [], [], .returned⟩ ∧
      actionHandler posix calm ⟨false, none⟩ "record 10" =
        startRecording posix calm ⟨false, none⟩ "10" ∧
      actionHandler posix calm ⟨false, none⟩ "zoom 2" =
        ⟨⟨false, none⟩, [.publish "ERROR: Unknown action: zoom 2"], [], .returned⟩ :=
  ⟨(actionHandler_dispatch posix calm ⟨false, none⟩ " \n").1 (by decide),
    (actionHandler_dispatch posix calm ⟨false, none⟩ "record 10").2.1 "record" ["10"]
      (by decide),
    (actionHandler_dispatch posix calm ⟨false, none⟩ "zoom 2").2.1 "zoom" ["2"] (by decide)⟩

/-! ### Processes started and waited on -/

theorem foldl_track_probeEvents (url : String) (n : Nat) (live : List Nat) :
    (probeEvents url n).foldl track live = live := by
  induction n with
  | zero => rfl
  | succ k ih =>
    simp only [probeEvents, List.replicate_succ, List.foldl_cons, track] at ih ⊢
    exact ih

theorem foldl_track_chown (w : World) (p : String) (live : List Nat) :
    (chownFileToUser w p).foldl track live = live := by
  simp only [chownFileToUser]
  split_ifs <;> rfl

theorem foldl_track_trimVideo (L : GoLib) (w : World) (p : String) (o : Float64)
    (live : List Nat) :
    (trimVideo L w p o).1.foldl track live = live := by
  unfold trimVideo
  rcases w.trimErr with _ | e
  · rcases w.renameErr with _ | e2 <;> rfl
  · rfl

theorem unwaited_append (tr evs : List Event) :
    unwaited (tr ++ evs) = evs.foldl track (unwaited tr) := by
  simp [unwaited, List.foldl_append]

theorem captureImage_tame (L : GoLib) (w : World) (s : State) : Tame s (captureImage L w s) := by
  left
  cases h : detectStartOffset L.parseFloat 0 w.probeOutputs with
  | returned t n =>
    simp only [captureImage, h]
    rcases w.captureErr with _ | e <;>
      simp [List.foldl_append, foldl_track_probeEvents, foldl_track_chown, track]
  | panicked n => simp [captureImage, h, foldl_track_probeEvents]
  | looping n => simp [captureImage, h, foldl_track_probeEvents]

theorem stopRecording_state (w : World) (s : State) :
    (stopRecording w s).state = s ∧ (stopRecording w s).spawned = [] ∧
      (stopRecording w s).exit = .returned ∧
      ∀ e ∈ (stopRecording w s).events,
        (∃ pid, e = .signalled pid) ∨ ∃ msg, e = .publish msg := by
  obtain ⟨r, c⟩ := s
  cases r with
  | false => simp [stopRecording]
  | true =>
    rcases c with _ | ⟨p, a, _ | pid⟩
    · simp [stopRecording]
    · simp [stopRecording]
    · rcases hs : w.signalErr with _ | e <;> simp [stopRecording, hs]

theorem foldl_track_signals (evs : List Event)
    (h : ∀ e ∈ evs, (∃ pid, e = .signalled pid) ∨ ∃ msg, e = .publish msg) (live : List Nat) :
    evs.foldl track live = live := by
  induction evs generalizing live with
  | nil => rfl
  | cons e es ih =>
    have he := h e (List.mem_cons_self _ _)
    have hes : ∀ x ∈ es, (∃ pid, x = .signalled pid) ∨ ∃ msg, x = .publish msg :=
      fun x hx => h x (List.mem_cons_of_mem _ hx)
    rcases he with ⟨pid, rfl⟩ | ⟨msg, rfl⟩ <;> simpa [track] using ih hes live

theorem stopRecording_tame (w : World) (s : State) : Tame s (stopRecording w s) := by
  obtain ⟨h1, h2, _, h4⟩ := stopRecording_state w s
  exact Or.inl ⟨h1, h2, foldl_track_signals _ h4⟩

theorem startRecording_rejected (L : GoLib) (w : World) (s : State) (duration : String)
    (h : s.isRecording = true) :
    startRecording L w s duration =
      ⟨s, [.publish "Recording already in progress"], [], .returned⟩ := by
  simp [startRecording, h]

theorem startRecording_accepted (L : GoLib) (w : World) (s : State) (duration : String)
    (t : Float64) (n : Nat) (hidle : s.isRecording = false) (hstart : w.startErr = none)
    (hprobe : detectStartOffset L.parseFloat 0 w.probeOutputs = .returned t n) :
    startRecording L w s duration =
      ⟨⟨true, some ⟨"ffmpeg",
          recordArgs duration (L.join CapturesDir ("video_" ++ w.now ++ ".mp4")), some w.pid⟩⟩,
        [.started w.pid (recordArgs duration (L.join CapturesDir ("video_" ++ w.now ++ ".mp4"))),
          .setRecording true] ++ probeEvents rtspUrl n ++ [.publish "The Recording Starts Now!"],
        [⟨L.join CapturesDir ("video_" ++ w.now ++ ".mp4"), t⟩], .returned⟩ := by
  simp only [startRecording, hidle, hstart, hprobe, Bool.false_eq_true, if_false]

theorem startRecording_tame (L : GoLib) (w : World) (s : State) (duration : String) :
    Tame s (startRecording L w s duration) := by
  by_cases hrec : s.isRecording = true
  · rw [startRecording_rejected L w s duration hrec]
    exact Or.inl ⟨rfl, rfl, fun _ => rfl⟩
  · have hidle : s.isRecording = false := by simpa using hrec
    rcases hstart : w.startErr with _ | err
    · right; right
      cases h : detectStartOffset L.parseFloat 0 w.probeOutputs with
      | returned t n =>
        rw [startRecording_accepted L w s duration t n hidle hstart h]
        refine ⟨hidle, by simp, _, w.pid, rfl, ?_⟩
        intro live
        simp [List.foldl_append, foldl_track_probeEvents, track]
      | panicked n =>
        have hs : startRecording L w s duration =
            ⟨⟨true, some ⟨"ffmpeg",
                recordArgs duration (L.join CapturesDir ("video_" ++ w.now ++ ".mp4")),
                some w.pid⟩⟩,
              [.started w.pid
                  (recordArgs duration (L.join CapturesDir ("video_" ++ w.now ++ ".mp4"))),
                .setRecording true] ++ probeEvents rtspUrl n, [], .panicked⟩ := by
          simp only [startRecording, hidle, hstart, h, Bool.false_eq_true, if_false]
        rw [hs]
        refine ⟨hidle, by simp, _, w.pid, rfl, ?_⟩
        intro live
        simp [List.foldl_append, foldl_track_probeEvents, track]
      | looping n =>
        have hs : startRecording L w s duration =
            ⟨⟨true, some ⟨"ffmpeg",
                recordArgs duration (L.join CapturesDir ("video_" ++ w.now ++ ".mp4")),
                some w.pid⟩⟩,
              [.started w.pid
                  (recordArgs duration (L.join CapturesDir ("video_" ++ w.now ++ ".mp4"))),
                .setRecording true] ++ probeEvents rtspUrl n, [], .blocked⟩ := by
          simp only [startRecording, hidle, hstart, h, Bool.false_eq_true, if_false]
        rw [hs]
        refine ⟨hidle, by simp, _, w.pid, rfl, ?_⟩
        intro live
        simp [List.foldl_append, foldl_track_probeEvents, track]
    · right; left
      have hs : startRecording L w s duration =
          ⟨⟨s.isRecording, some ⟨"ffmpeg",
              recordArgs duration (L.join CapturesDir ("video_" ++ w.now ++ ".mp4")), none⟩⟩,
            [.publish ("ERROR: Failed to start recording: " ++ err)], [], .returned⟩ := by
        simp only [startRecording, hidle, hstart, Bool.false_eq_true, if_false]
      rw [hs]
      exact ⟨hidle, hidle, rfl, fun _ => rfl⟩

theorem actionHandler_token (L : GoLib) (w : World) (s : State) (p action : String)
    (rest : List String) (h : Fields p = action :: rest) :
    actionHandler L w s p =
      if action = "picture" then captureImage L w s
      else if action = "record" then startRecording L w s (rest.headD "")
      else if action = "stop" then stopRecording w s
      else ⟨s, [.publish ("ERROR: Unknown action: " ++ TrimSpace p)], [], .returned⟩ := by
  have hne := TrimSpace_ne_empty p action rest h
  simp only [actionHandler, hne, if_false, Fields_TrimSpace, h]

theorem payload_cases (p : String) :
    (∀ c ∈ p.data, isSpace c = true) ∨ ∃ action rest, Fields p = action :: rest := by
  cases hf : Fields p with
  | nil =>
    left
    have : fieldsGo p.data [] = [] := by
      simpa [Fields] using hf
    exact (fieldsGo_eq_nil _ _ this).2
  | cons a l => exact Or.inr ⟨a, l, rfl⟩

theorem actionHandler_tame (L : GoLib) (w : World) (s : State) (p : String) :
    Tame s (actionHandler L w s p) := by
  rcases payload_cases p with hsp | ⟨action, rest, h⟩
  · have : actionHandler L w s p = ⟨s, [], [], .returned⟩ := by
      simp [actionHandler, TrimSpace_of_spaces p hsp]
    rw [this]
    exact Or.inl ⟨rfl, rfl, fun _ => rfl⟩
  · rw [actionHandler_token L w s p action rest h]
    split_ifs
    · exact captureImage_tame L w s
    · exact startRecording_tame L w s _
    · exact stopRecording_tame w s
    · exact Or.inl ⟨rfl, rfl, fun _ => rfl⟩

theorem inv_initial : Inv initial := by
  constructor
  · intro h
    exact absurd h (by decide)
  · intro _
    exact ⟨rfl, rfl⟩

theorem inv_after (sys : System) (r : Result) (hinv : Inv sys) (hr : Tame sys.state r) :
    Inv (sys.after sys.tasks r) := by
  obtain ⟨hon, hoff⟩ := hinv
  rcases hr with ⟨hs, hsp, hev⟩ | ⟨hidle, hidle2, hsp, hev⟩ | ⟨hidle, hsp, args, pid, hs, hev⟩
  · constructor
    · intro h
      simp only [System.after, hs] at h ⊢
      obtain ⟨⟨c, pid, h1, h2, h3⟩, h4⟩ := hon h
      refine ⟨⟨c, pid, h1, h2, ?_⟩, ?_⟩
      · rw [unwaited_append, hev, h3]
      · simpa [hsp] using h4
    · intro h
      simp only [System.after, hs] at h ⊢
      obtain ⟨h1, h2⟩ := hoff h
      refine ⟨?_, ?_⟩
      · rw [unwaited_append, hev, h1]
      · simp [hsp, h2]
  · obtain ⟨h1, h2⟩ := hoff hidle
    constructor
    · intro h
      simp only [System.after] at h
      rw [hidle2] at h
      exact absurd h (by decide)
    · intro _
      simp only [System.after]
      refine ⟨?_, ?_⟩
      · rw [unwaited_append, hev, h1]
      · simp [hsp, h2]
  · obtain ⟨h1, h2⟩ := hoff hidle
    constructor
    · intro _
      simp only [System.after, hs]
      refine ⟨⟨_, pid, rfl, rfl, ?_⟩, ?_⟩
      · rw [unwaited_append, hev, h1]
        rfl
      · simpa [h2] using hsp
    · intro h
      simp only [System.after, hs] at h
      exact absurd h (by decide)

theorem inv_completion (L : GoLib) (w : World) (sys : System) (t : Task) (ts : List Task)
    (hinv : Inv sys) (htasks : sys.tasks = t :: ts) :
    Inv (sys.after ts (completionTask L w sys.state t)) := by
  obtain ⟨hon, hoff⟩ := hinv
  have hrec : sys.state.isRecording = true := by
    by_contra hne
    have hidle : sys.state.isRecording = false := by simpa using hne
    have := (hoff hidle).2
    rw [htasks] at this
    exact List.noConfusion this
  obtain ⟨⟨c, pid, h1, h2, h3⟩, h4⟩ := hon hrec
  have hts : ts = [] := by
    rw [htasks] at h4
    simpa using h4
  constructor
  · intro h
    simp only [System.after, completionTask, h1] at h
    exact absurd h (by decide)
  · intro _
    simp only [System.after, completionTask, h1, h2, hts]
    refine ⟨?_, rfl⟩
    rw [unwaited_append, h3]
    simp [List.foldl_append, foldl_track_chown, foldl_track_trimVideo, track]

theorem inv_step (L : GoLib) (sys : System) (i : Input) (hinv : Inv sys) :
    Inv (step L sys i) := by
  cases i with
  | message w payload =>
    simp only [step]
    split_ifs
    · exact hinv
    · exact inv_after sys _ hinv (actionHandler_tame L w sys.state payload)
  | processExit w =>
    simp only [step]
    split_ifs
    · exact hinv
    · cases htasks : sys.tasks with
      | nil => exact hinv
      | cons t ts => exact inv_completion L w sys t ts hinv htasks

theorem inv_run (L : GoLib) (sys : System) (inputs : List Input) (hinv : Inv sys) :
    Inv (run L sys inputs) := by
  induction inputs generalizing sys with
  | nil => exact hinv
  | cons i rest ih => exact ih (step L sys i) (inv_step L sys i hinv)

theorem unwaited_le_one (sys : System) (hinv : Inv sys) : (unwaited sys.trace).length ≤ 1 := by
  cases h : sys.state.isRecording with
  | true =>
    obtain ⟨⟨c, pid, _, _, h3⟩, _⟩ := hinv.1 h
    simp [h3]
  | false => simp [(hinv.2 h).1]

/-- C5: when the re-encode subprocess of `trimVideo` fails, `trimVideo` has
only run that subprocess and returns an error; and in every reachable state
with a waiting completion goroutine, neither `trimVideo` nor the rest of that
goroutine calls `os.Rename`, and the goroutine publishes the status
"ERROR trimming video: ..." and not "Trimmed video saved: ...". -/
theorem trim_failure_keeps_original (L : GoLib) (inputs : List Input) (w : World) (t : Task)
    (ts : List Task) (filePath : String) (startOffset : Float64) (err : String)
    (hfail : w.trimErr = some err) (htasks : (run L initial inputs).tasks = t :: ts) :
    trimVideo L w filePath startOffset =
        ([.trimCalled filePath startOffset,
          .ran "ffmpeg"
            (trimArgs filePath startOffset (L.join (L.dir filePath) "temp_trimmed.mp4"))],
         some ("ffmpeg trim error: " ++ w.trimOut ++ ", " ++ err)) ∧
      (∀ src dst,
        Event.renamed src dst ∉ (completionTask L w (run L initial inputs).state t).events) ∧
      published (completionTask L w (run L initial inputs).state t).events =
        ["The Recording Stops Now!",
         "ERROR trimming video: " ++ ("ffmpeg trim error: " ++ w.trimOut ++ ", " ++ err),
         "Recording stopped: " ++ L.join w.wd t.filename] ∧
      "Trimmed video saved: " ++ L.join w.wd t.filename ∉
        published (completionTask L w (run L initial inputs).state t).events := by
  have hinv := inv_run L initial inputs inv_initial
  generalize run L initial inputs = sys at htasks hinv ⊢
  have hrec : sys.state.isRecording = true := by
    by_contra hne
    have hidle : sys.state.isRecording = false := by simpa using hne
    have := (hinv.2 hidle).2
    rw [htasks] at this
    exact List.noConfusion this
  obtain ⟨⟨cmd, pid, hcmd, hpid, _⟩, _⟩ := hinv.1 hrec
  have htrim : ∀ p o, trimVideo L w p o =
      ([.trimCalled p o, .ran "ffmpeg" (trimArgs p o (L.join (L.dir p) "temp_trimmed.mp4"))],
       some ("ffmpeg trim error: " ++ w.trimOut ++ ", " ++ err)) := by
    intro p o
    simp only [trimVideo, hfail]
  have hpub : published (completionTask L w sys.state t).events =
      ["The Recording Stops Now!",
       "ERROR trimming video: " ++ ("ffmpeg trim error: " ++ w.trimOut ++ ", " ++ err),
       "Recording stopped: " ++ L.join w.wd t.filename] := by
    simp only [completionTask, hcmd, hpid, htrim, published_append, published_chown, trimStatus]
    rfl
  refine ⟨htrim _ _, ?_, hpub, ?_⟩
  · intro src dst
    simp only [completionTask, hcmd, hpid, htrim]
    have := not_renamed_chown w (L.join w.wd t.filename) src dst
    simp [this]
  · rw [hpub]
    intro hmem
    simp only [List.mem_cons, List.mem_singleton, List.not_mem_nil, or_false] at hmem
    rcases hmem with h | h | h <;>
      · have hd := congrArg String.data h
        simp [String.data_append] at hd

theorem trim_failure_keeps_original_witness :
    (run posix initial [.message calm "record 10"]).tasks =
        [⟨"captures/video_20240101_120000.mp4", 0⟩] ∧
      (∀ src dst, Event.renamed src dst ∉
        (completionTask posix { calm with trimErr := some "exit status 1" }
          (run posix initial [.message calm "record 10"]).state
          ⟨"captures/video_20240101_120000.mp4", 0⟩).events) ∧
      published (completionTask posix { calm with trimErr := some "exit status 1" }
          (run posix initial [.message calm "record 10"]).state
          ⟨"captures/video_20240101_120000.mp4", 0⟩).events =
        ["The Recording Stops Now!",
         "ERROR trimming video: ffmpeg trim error: , exit status 1",
         "Recording stopped: /app/captures/video_20240101_120000.mp4"] :=
  ⟨by decide,
    (trim_failure_keeps_original posix [.message calm "record 10"]
      { calm with trimErr := some "exit status 1" } ⟨"captures/video_20240101_120000.mp4", 0⟩ []
      "/app/captures/video_20240101_120000.mp4" 0 "exit status 1" rfl (by decide)).2.1,
    (trim_failure_keeps_original posix [.message calm "record 10"]
      { calm with trimErr := some "exit status 1" } ⟨"captures/video_20240101_120000.mp4", 0⟩ []
      "/app/captures/video_20240101_120000.mp4" 0 "exit status 1" rfl (by decide)).2.2.1⟩

/-- C1: in every state reached from start-up by messages handled one at a
time and by process exits, at most one recording process has been started and
not yet waited on; and whenever `isRecording` is set, `startRecording` starts
no process, launches no goroutine, leaves `isRecording` and `recordCmd` as
they were and publishes only "Recording already in progress". -/
theorem at_most_one_recording (L : GoLib) (inputs : List Input) :
    (unwaited (run L initial inputs).trace).length ≤ 1 ∧
      ∀ (w : World) (s : State) (duration : String), s.isRecording = true →
        startRecording L w s duration =
          ⟨s, [.publish "Recording already in progress"], [], .returned⟩ :=
  ⟨unwaited_le_one _ (inv_run L initial inputs inv_initial),
    fun w s duration h => startRecording_rejected L w s duration h⟩

theorem at_most_one_recording_witness :
    (run posix initial [.message calm "record 10", .message calm "record 10"]).state.isRecording
        = true ∧
      unwaited (run posix initial [.message calm "record 10", .message calm "record 10"]).trace
        = [7] ∧
      startRecording posix calm recordingState "10" =
        ⟨recordingState, [.publish "Recording already in progress"], [], .returned⟩ :=
  ⟨by decide, by decide,
    (at_most_one_recording posix []).2 calm recordingState "10" (by decide)⟩

/-! ### Finalisation of a recording -/

theorem clears_append (xs ys : List Event) : clears (xs ++ ys) = clears xs + clears ys := by
  simp [clears, List.countP_append]

theorem trims_append (xs ys : List Event) : trims (xs ++ ys) = trims xs + trims ys := by
  simp [trims, List.countP_append]

theorem clears_probeEvents (url : String) (n : Nat) : clears (probeEvents url n) = 0 := by
  induction n with
  | zero => rfl
  | succ k ih =>
    simp only [probeEvents, List.replicate_succ, clears] at ih ⊢
    rw [List.countP_cons_of_neg _ _ (by simp)]
    exact ih

theorem trims_probeEvents (url : String) (n : Nat) : trims (probeEvents url n) = 0 := by
  induction n with
  | zero => rfl
  | succ k ih =>
    simp only [probeEvents, List.replicate_succ, trims] at ih ⊢
    rw [List.countP_cons_of_neg _ _ (by simp)]
    exact ih

theorem clears_chown (w : World) (p : String) : clears (chownFileToUser w p) = 0 := by
  simp only [chownFileToUser]
  split_ifs <;> rfl

theorem trims_chown (w : World) (p : String) : trims (chownFileToUser w p) = 0 := by
  simp only [chownFileToUser]
  split_ifs <;> rfl

theorem clears_trimVideo (L : GoLib) (w : World) (p : String) (o : Float64) :
    clears (trimVideo L w p o).1 = 0 := by
  unfold trimVideo
  rcases w.trimErr with _ | e
  · rcases w.renameErr with _ | e2 <;> rfl
  · rfl

theorem trims_trimVideo (L : GoLib) (w : World) (p : String) (o : Float64) :
    trims (trimVideo L w p o).1 = 1 := by
  unfold trimVideo
  rcases w.trimErr with _ | e
  · rcases w.renameErr with _ | e2 <;> rfl
  · rfl

theorem no_finalisation_of_signals (evs : List Event)
    (h : ∀ e ∈ evs, (∃ pid, e = .signalled pid) ∨ ∃ msg, e = .publish msg) :
    clears evs = 0 ∧ trims evs = 0 := by
  induction evs with
  | nil => exact ⟨rfl, rfl⟩
  | cons e es ih =>
    have he := h e (List.mem_cons_self _ _)
    have hes := ih fun x hx => h x (List.mem_cons_of_mem _ hx)
    simp only [clears, trims] at hes ⊢
    rcases he with ⟨pid, rfl⟩ | ⟨msg, rfl⟩
    · rw [List.countP_cons_of_neg _ _ (by simp), List.countP_cons_of_neg _ _ (by simp)]
      exact hes
    · rw [List.countP_cons_of_neg _ _ (by simp), List.countP_cons_of_neg _ _ (by simp)]
      exact hes

theorem run_cons (L : GoLib) (sys : System) (i : Input) (rest : List Input) :
    run L sys (i :: rest) = run L (step L sys i) rest := rfl

theorem step_stop (L : GoLib) (sys : System) (w : World) (p : String) (r : List String)
    (hlive : sys.halted = false) (hp : Fields p = "stop" :: r) :
    step L sys (.message w p) =
      ⟨sys.state, sys.tasks, sys.trace ++ (stopRecording w sys.state).events, false⟩ := by
  obtain ⟨h1, h2, h3, _⟩ := stopRecording_state w sys.state
  have hd : actionHandler L w sys.state p = stopRecording w sys.state := by
    rw [actionHandler_token L w sys.state p "stop" r hp]
    rw [if_neg (by decide), if_neg (by decide), if_pos rfl]
  simp only [step, hlive, hd, System.after, h1, h2, h3, List.append_nil]
  simp

theorem run_stops (L : GoLib) (sys : System) (stops : List (World × String))
    (hlive : sys.halted = false) (hstops : ∀ x ∈ stops, ∃ r, Fields x.2 = "stop" :: r) :
    ∃ evs, run L sys (messages stops) = ⟨sys.state, sys.tasks, sys.trace ++ evs, false⟩ ∧
      clears evs = 0 ∧ trims evs = 0 := by
  induction stops generalizing sys with
  | nil =>
    refine ⟨[], ?_, rfl, rfl⟩
    obtain ⟨st, ts, tr, hl⟩ := sys
    simp only at hlive
    subst hlive
    simp [run, messages]
  | cons x xs ih =>
    obtain ⟨r, hr⟩ := hstops x (List.mem_cons_self _ _)
    have hx := step_stop L sys x.1 x.2 r hlive hr
    obtain ⟨evs, hrun, hc, ht⟩ := ih
      ⟨sys.state, sys.tasks, sys.trace ++ (stopRecording x.1 sys.state).events, false⟩ rfl
      (fun y hy => hstops y (List.mem_cons_of_mem _ hy))
    have hsig := no_finalisation_of_signals _ (stopRecording_state x.1 sys.state).2.2.2
    refine ⟨(stopRecording x.1 sys.state).events ++ evs, ?_, ?_, ?_⟩
    · simp only [messages, List.map_cons, run_cons, hx]
      simp only [messages] at hrun
      rw [hrun, List.append_assoc]
    · rw [clears_append, hsig.1, hc]
    · rw [trims_append, hsig.2, ht]

/-- C7, as the claim states it, fails: the recording subprocess starts
(process 7), but the probe keeps seeing a blank segment without an end, so
`startRecording` is still polling and has launched no completion goroutine;
the process then ends and a "stop" arrives, and `isRecording` is still set,
never cleared, and `trimVideo` was never called. -/
theorem no_finalisation_while_probe_polls :
    (startRecording posix stuck ⟨false, none⟩ "10").events =
        [.started 7 (recordArgs "10" "captures/video_20240101_120000.mp4"),
         .setRecording true, .ran "ffmpeg" (probeArgs rtspUrl),
         .ran "ffmpeg" (probeArgs rtspUrl)] ∧
      (startRecording posix stuck ⟨false, none⟩ "10").exit = .blocked ∧
      (startRecording posix stuck ⟨false, none⟩ "10").spawned = [] ∧
      (run posix initial
        [.message stuck "record 10", .processExit calm, .message calm "stop"]).state.isRecording
        = true ∧
      clears (run posix initial
        [.message stuck "record 10", .processExit calm, .message calm "stop"]).trace = 0 ∧
      trims (run posix initial
        [.message stuck "record 10", .processExit calm, .message calm "stop"]).trace = 0 := by
  decide

/-- C7, amended: take any reachable state in which the message loop runs and no
recording is in progress, a "record" message whose subprocess starts and
whose probe returns (so that `startRecording` returns), any number of "stop" messages, the exit of the
recording process, and any number of further "stop" messages. Up to the
exit `isRecording` stays set, it is never cleared and `trimVideo` is never
called. The completion goroutine then runs once: it waits on the process,
clears `isRecording`, and calls `trimVideo` once, on the file of that
recording. The later "stop" messages clear nothing and trim nothing; and in
any state `stopRecording` leaves the globals as they are and neither clears
the flag nor calls `trimVideo`. -/
theorem single_finalisation (L : GoLib) (inputs : List Input) (w0 w1 : World) (p0 : String)
    (rest : List String) (t : Float64) (n : Nat) (stops1 stops2 : List (World × String))
    (hlive : (run L initial inputs).halted = false)
    (hidle : (run L initial inputs).state.isRecording = false)
    (hrecord : Fields p0 = "record" :: rest)
    (hstart : w0.startErr = none)
    (hprobe : detectStartOffset L.parseFloat 0 w0.probeOutputs = .returned t n)
    (hstops1 : ∀ x ∈ stops1, ∃ r, Fields x.2 = "stop" :: r)
    (hstops2 : ∀ x ∈ stops2, ∃ r, Fields x.2 = "stop" :: r) :
    ∃ evA evDone evB,
      (run L (run L initial inputs) (.message w0 p0 :: messages stops1)).trace =
          (run L initial inputs).trace ++ evA ∧
        (run L (run L initial inputs) (.message w0 p0 :: messages stops1)).state.isRecording
          = true ∧
        clears evA = 0 ∧ trims evA = 0 ∧
        (run L (run L (run L initial inputs) (.message w0 p0 :: messages stops1))
            (.processExit w1 :: messages stops2)).trace =
          (run L initial inputs).trace ++ evA ++ evDone ++ evB ∧
        (run L (run L (run L initial inputs) (.message w0 p0 :: messages stops1))
            (.processExit w1 :: messages stops2)).state.isRecording = false ∧
        evDone =
          [.waited w0.pid, .setRecording false, .publish "The Recording Stops Now!"] ++
            chownFileToUser w1 (L.join w1.wd (L.join CapturesDir ("video_" ++ w0.now ++ ".mp4")))
            ++ (trimVideo L w1
              (L.join w1.wd (L.join CapturesDir ("video_" ++ w0.now ++ ".mp4"))) t).1 ++
            [.publish (trimStatus
                (L.join w1.wd (L.join CapturesDir ("video_" ++ w0.now ++ ".mp4")))
                (trimVideo L w1
                  (L.join w1.wd (L.join CapturesDir ("video_" ++ w0.now ++ ".mp4"))) t).2),
              .publish ("Recording stopped: " ++
                L.join w1.wd (L.join CapturesDir ("video_" ++ w0.now ++ ".mp4")))] ∧
        evDone =
          (completionTask L w1
            (run L (run L initial inputs) (.message w0 p0 :: messages stops1)).state
            ⟨L.join CapturesDir ("video_" ++ w0.now ++ ".mp4"), t⟩).events ∧
        Event.trimCalled (L.join w1.wd (L.join CapturesDir ("video_" ++ w0.now ++ ".mp4"))) t ∈
          evDone ∧
        clears evDone = 1 ∧ trims evDone = 1 ∧ clears evB = 0 ∧ trims evB = 0 ∧
        ∀ (w : World) (s : State), (stopRecording w s).state = s ∧
          clears (stopRecording w s).events = 0 ∧ trims (stopRecording w s).events = 0 := by
  have hinv := inv_run L initial inputs inv_initial
  have htasks : (run L initial inputs).tasks = [] := (hinv.2 hidle).2
  generalize run L initial inputs = sys0 at hlive hidle htasks ⊢
  -- the record message
  have hacc := startRecording_accepted L w0 sys0.state (rest.headD "") t n hidle hstart hprobe
  have hd : actionHandler L w0 sys0.state p0 = startRecording L w0 sys0.state (rest.headD "") := by
    rw [actionHandler_token L w0 sys0.state p0 "record" rest hrecord]
    rw [if_neg (by decide), if_pos rfl]
  have hstep1 : step L sys0 (.message w0 p0) =
      ⟨⟨true, some ⟨"ffmpeg",
          recordArgs (rest.headD "") (L.join CapturesDir ("video_" ++ w0.now ++ ".mp4")),
          some w0.pid⟩⟩,
        [⟨L.join CapturesDir ("video_" ++ w0.now ++ ".mp4"), t⟩],
        sys0.trace ++
          ([.started w0.pid
              (recordArgs (rest.headD "") (L.join CapturesDir ("video_" ++ w0.now ++ ".mp4"))),
            .setRecording true] ++ probeEvents rtspUrl n ++
            [.publish "The Recording Starts Now!"]),
        false⟩ := by
    simp only [step, hlive, hd, hacc, System.after, htasks]
    simp
  have hl1 : (step L sys0 (.message w0 p0)).halted = false := by rw [hstep1]
  obtain ⟨ev1, hrun1, hc1, ht1⟩ := run_stops L _ stops1 hl1 hstops1
  have hA : run L sys0 (.message w0 p0 :: messages stops1) = _ := hrun1
  rw [hstep1] at hA
  simp only at hA
  -- the exit of the process
  have hstep2 : step L (run L sys0 (.message w0 p0 :: messages stops1)) (.processExit w1) =
      ⟨⟨false, some ⟨"ffmpeg",
          recordArgs (rest.headD "") (L.join CapturesDir ("video_" ++ w0.now ++ ".mp4")),
          some w0.pid⟩⟩,
        [],
        (run L sys0 (.message w0 p0 :: messages stops1)).trace ++
          (completionTask L w1 (run L sys0 (.message w0 p0 :: messages stops1)).state
            ⟨L.join CapturesDir ("video_" ++ w0.now ++ ".mp4"), t⟩).events,
        false⟩ := by
    rw [hA]
    simp [step, System.after, completionTask]
  have hl2 : (step L (run L sys0 (.message w0 p0 :: messages stops1))
      (.processExit w1)).halted = false := by rw [hstep2]
  obtain ⟨ev2, hrun2, hc2, ht2⟩ := run_stops L _ stops2 hl2 hstops2
  have hB : run L (run L sys0 (.message w0 p0 :: messages stops1))
      (.processExit w1 :: messages stops2) = _ := hrun2
  rw [hstep2] at hB
  simp only at hB
  have hdone : (completionTask L w1 (run L sys0 (.message w0 p0 :: messages stops1)).state
      ⟨L.join CapturesDir ("video_" ++ w0.now ++ ".mp4"), t⟩).events =
      [.waited w0.pid, .setRecording false, .publish "The Recording Stops Now!"] ++
        chownFileToUser w1 (L.join w1.wd (L.join CapturesDir ("video_" ++ w0.now ++ ".mp4")))
        ++ (trimVideo L w1
          (L.join w1.wd (L.join CapturesDir ("video_" ++ w0.now ++ ".mp4"))) t).1 ++
        [.publish (trimStatus
            (L.join w1.wd (L.join CapturesDir ("video_" ++ w0.now ++ ".mp4")))
            (trimVideo L w1
              (L.join w1.wd (L.join CapturesDir ("video_" ++ w0.now ++ ".mp4"))) t).2),
          .publish ("Recording stopped: " ++
            L.join w1.wd (L.join CapturesDir ("video_" ++ w0.now ++ ".mp4")))] := by
    rw [hA]
    simp [completionTask]
  have hmem : Event.trimCalled
      (L.join w1.wd (L.join CapturesDir ("video_" ++ w0.now ++ ".mp4"))) t ∈
      (trimVideo L w1 (L.join w1.wd (L.join CapturesDir ("video_" ++ w0.now ++ ".mp4"))) t).1 := by
    unfold trimVideo
    rcases w1.trimErr with _ | e
    · rcases w1.renameErr with _ | e2 <;> simp
    · simp
  refine ⟨[.started w0.pid
        (recordArgs (rest.headD "") (L.join CapturesDir ("video_" ++ w0.now ++ ".mp4"))),
      .setRecording true] ++ probeEvents rtspUrl n ++
      [.publish "The Recording Starts Now!"] ++ ev1,
    (completionTask L w1 (run L sys0 (.message w0 p0 :: messages stops1)).state
      ⟨L.join CapturesDir ("video_" ++ w0.now ++ ".mp4"), t⟩).events,
    ev2, ?_, ?_, ?_, ?_, ?_, ?_, hdone, rfl, ?_, ?_, ?_, hc2, ht2, ?_⟩
  · rw [hA]
    simp [List.append_assoc]
  · rw [hA]
  · simp only [clears_append, clears_probeEvents, hc1]
    rfl
  · simp only [trims_append, trims_probeEvents, ht1]
    rfl
  · rw [hB, hA]
    simp [List.append_assoc]
  · rw [hB]
  · rw [hdone]
    simp [hmem]
  · rw [hdone]
    simp only [clears_append, clears_chown, clears_trimVideo]
    rfl
  · rw [hdone]
    simp only [trims_append, trims_chown, trims_trimVideo]
    rfl
  · intro w s
    obtain ⟨h1, _, _, h4⟩ := stopRecording_state w s
    exact ⟨h1, no_finalisation_of_signals _ h4⟩

theorem single_finalisation_witness :
    clears (run posix initial
        [.message calm "record 10", .message calm "stop", .message calm "stop",
         .processExit calm, .message calm "stop"]).trace = 1 ∧
      ∃ evA evDone evB,
        (run posix (run posix (run posix initial [])
            (.message calm "record 10" :: messages [(calm, "stop"), (calm, "stop")]))
            (.processExit calm :: messages [(calm, "stop")])).trace =
          (run posix initial []).trace ++ evA ++ evDone ++ evB ∧
        clears evA = 0 ∧ trims evA = 0 ∧ clears evDone = 1 ∧ trims evDone = 1 ∧
        clears evB = 0 ∧ trims evB = 0 := by
  have hstop : ∀ l : List (World × String), (∀ x ∈ l, x.2 = "stop") →
      ∀ x ∈ l, ∃ r, Fields x.2 = "stop" :: r := by
    intro l hl x hx
    rw [hl x hx]
    exact ⟨[], by decide⟩
  obtain ⟨evA, evDone, evB, _, _, h3, h4, h5, _, _, _, _, h10, h11, h12, h13, _⟩ :=
    single_finalisation posix [] calm calm "record 10" ["10"] 0 1
      [(calm, "stop"), (calm, "stop")] [(calm, "stop")] (by decide) (by decide) (by decide) rfl
      (by decide) (hstop _ (by simp)) (hstop _ (by simp))
  exact ⟨by decide, evA, evDone, evB, h5, h3, h4, h10, h11, h12, h13⟩

end CameraController
